import Mathlib

/-!
Shallow embedding of the file-sharing server (`src/server/server.js`,
`src/server/cloudinary.js`) of Frahiner/proyecto-final.

The Supabase relational store is modelled abstractly, as the spec directs
("treated as an opaque relational store reached through a query interface"):
a table is a `List` of rows, an `.eq` chain is a boolean predicate over a
row, `.single()` returns the first matching row if any, `.update` maps over
the rows, and a backing-store failure is the whole store being in an
`Except.error` state whose payload is the raw `error.message` string.
`bcrypt.compare` is an abstract parameter, `fs.existsSync` is an abstract
predicate on paths, and a JWT is a record of its claims, issue time, expiry
time and the secret it was signed with (signature verification = the
secret baked into the token equals the verifier's secret); a syntactically
malformed token string is the extra constructor `Presented.malformed`.
Times are seconds as `Nat`.
-/

namespace FileShare

/-- JWT claim payloads as produced by the two `jwt.sign` call sites of
`server.js`: Access Tokens claim `{ id, username }` (register/login),
Share Tokens claim `{ fileId }` (the share handler). -/
inductive Claims where
  | access (id : Nat) (username : String)
  | share (fileId : Nat)
deriving DecidableEq, Repr

/-- `decoded.id` / `req.user.id`: reading the `id` property of the decoded
claims object; `undefined` (absent on a Share-Token payload) is `none`. -/
def Claims.userId? : Claims → Option Nat
  | .access i _ => some i
  | .share _ => none

/-- `decoded.fileId`: reading the `fileId` property of the decoded claims
object; `undefined` (absent on an Access-Token payload) is `none`. -/
def Claims.fileId? : Claims → Option Nat
  | .access _ _ => none
  | .share f => some f

/-- A signed JWT: its payload, issue time (`iat`), expiry time (`exp`) and
the secret that produced its signature. Two tokens are the same string iff
all four components agree (JWT serialisation is deterministic and
injective on these). -/
structure Token where
  claims : Claims
  iat : Nat
  exp : Nat
  secret : String
deriving DecidableEq, Repr

/-- `jwt.sign(claims, secret, { expiresIn: ttl })` at current time `now`. -/
def sign (c : Claims) (secret : String) (now ttl : Nat) : Token :=
  { claims := c, iat := now, exp := now + ttl, secret := secret }

/-- A token string presented by a client: either not a well-formed JWT at
all, or a well-formed JWT `t` (possibly expired or signed under a
different secret). -/
inductive Presented where
  | malformed
  | tok (t : Token)
deriving DecidableEq, Repr

/-- `jwt.verify(token, secret)` at current time `now`: fails on a
malformed payload, a signature mismatch, or an elapsed expiry; otherwise
returns the decoded claims. -/
def verify (p : Presented) (secret : String) (now : Nat) : Option Claims :=
  match p with
  | .malformed => none
  | .tok t => if t.secret = secret ∧ now < t.exp then some t.claims else none

/-- The process-wide signing secret (`JWT_SECRET`), used by every
`jwt.sign` and `jwt.verify` call in `server.js`. -/
def JWT_SECRET : String := "tu_clave_secreta_muy_segura"

/-- Outcome of the `authenticateToken` middleware. -/
inductive AuthResult where
  | missing
  | invalid
  | ok (user : Claims)
deriving DecidableEq, Repr

/-- `authenticateToken` (server.js:86-101): 401 when no bearer token is
present, 403 when `jwt.verify` fails for any reason, otherwise stores the
decoded claims as `req.user` unchecked (no schema check on their shape). -/
def authenticateToken (authHeader : Option Presented) (now : Nat) : AuthResult :=
  match authHeader with
  | none => .missing
  | some p =>
    match verify p JWT_SECRET now with
    | none => .invalid
    | some user => .ok user

/-- The HTTP status and error message the middleware sends for each failed
authentication outcome (`none` = the request proceeds to the handler). -/
def authResponse : AuthResult → Option (Nat × String)
  | .missing => some (401, "Token de acceso requerido")
  | .invalid => some (403, "Token inválido")
  | .ok _ => none

/-- A row of the `files` table (init-db.js). `share_token` stores the
serialized share JWT (a `Token` in this embedding, `none` = SQL NULL). -/
structure FileRow where
  id : Nat
  user_id : Nat
  filename : String
  original_name : String
  file_path : String
  file_size : Nat
  mime_type : String
  is_shared : Bool
  share_token : Option Token
  uploaded_at : Nat
deriving DecidableEq, Repr

/-- The `files` table. -/
abbrev DB := List FileRow

/-- The store as seen by one handler call: available with contents `db`,
or failing every query with raw message `msg` (`error.message`). -/
abbrev Store := Except String DB

/-- `files.id` is `SERIAL PRIMARY KEY` (init-db.js): ids are pairwise
distinct. -/
def wellFormed (db : DB) : Prop := (db.map FileRow.id).Nodup

/-- A row of the `users` table (init-db.js). `password` is the stored
bcrypt hash. -/
structure UserRow where
  id : Nat
  username : String
  email : String
  password : String
deriving DecidableEq, Repr

/-! ## Route handlers -/

/-- Outcome of `GET /api/files`. -/
inductive ListResult where
  | storeError (details : String)
  | ok (files : List FileRow)
deriving DecidableEq, Repr

/-- `GET /api/files` handler (server.js:227-242): selects the rows with
`user_id` equal to the caller's id (`req.user.id`, which is `none` when
the decoded claims carry no `id` property). -/
def listFiles (store : Store) (userId : Option Nat) : ListResult :=
  match store with
  | .error msg => .storeError msg
  | .ok db => .ok (db.filter fun r => decide (userId = some r.user_id))

/-- Outcome of `GET /api/files/:id/download`. -/
inductive DlResult where
  | storeError (details : String)
  | notFound
  | physMissing
  | ok (file_path original_name : String)
deriving DecidableEq, Repr

/-- `GET /api/files/:id/download` handler (server.js:244-270): single row
with `id = fileId AND user_id = req.user.id`; 404 `Archivo no encontrado`
when none matches; 404 `Archivo físico no encontrado` when the path is
gone from disk; otherwise streams the file under its original name. -/
def download (store : Store) (disk : String → Bool)
    (userId : Option Nat) (fileId : Nat) : DlResult :=
  match store with
  | .error msg => .storeError msg
  | .ok db =>
    match db.find? (fun r => decide (r.id = fileId) && decide (userId = some r.user_id)) with
    | none => .notFound
    | some f => if disk f.file_path then .ok f.file_path f.original_name else .physMissing

/-- The client-visible response for a download outcome:
(status, error-or-filename, `details` field if present). The
`.storeError` arm carries `details: error.message` verbatim
(server.js:255). -/
def dlResponse : DlResult → Nat × String × Option String
  | .storeError m => (500, "Error al buscar archivo", some m)
  | .notFound => (404, "Archivo no encontrado", none)
  | .physMissing => (404, "Archivo físico no encontrado", none)
  | .ok _ n => (200, n, none)

/-- Outcome of `POST /api/files/:id/share`. -/
inductive ShResult where
  | storeError (details : String)
  | notFound
  | ok (protocol host : String) (token : Token)
deriving DecidableEq, Repr

/-- `POST /api/files/:id/share` handler (server.js:272-298): mints a
7-day Share Token claiming `{ fileId }`, then one update sets
`is_shared = true` and `share_token = token` on the rows with
`id = fileId AND user_id = req.user.id`; 404 when no row matched;
otherwise answers with the share URL
`protocol://host/api/shared/<token>`, modelled as the `.ok` payload. -/
def shareHandler (store : Store) (userId : Option Nat) (fileId : Nat)
    (now : Nat) (protocol host : String) : Store × ShResult :=
  let shareToken := sign (.share fileId) JWT_SECRET now (7 * 24 * 60 * 60)
  match store with
  | .error msg => (.error msg, .storeError msg)
  | .ok db =>
    let hit := fun (r : FileRow) => decide (r.id = fileId) && decide (userId = some r.user_id)
    let db' := db.map fun r =>
      if hit r then { r with is_shared := true, share_token := some shareToken } else r
    if (db.filter hit).isEmpty then (.ok db', .notFound)
    else (.ok db', .ok protocol host shareToken)

/-- Outcome of `GET /api/shared/:token`. -/
inductive RedeemResult where
  | storeError (details : String)
  | invalidToken
  | notFound
  | physMissing
  | ok (file_path original_name : String)
deriving DecidableEq, Repr

/-- `GET /api/shared/:token` handler (server.js:300-329): `jwt.verify`
(its guard inlined: well-formed, matching secret, unexpired — the `catch`
arm answers `Token inválido o error interno` otherwise), then single row
with `id = decoded.fileId AND is_shared = true AND share_token = token`,
comparing the stored token string against the presented one; 404 when
none matches, 404 for a missing physical file, else streams the file. -/
def redeemShare (store : Store) (disk : String → Bool)
    (p : Presented) (now : Nat) : RedeemResult :=
  match p with
  | .malformed => .invalidToken
  | .tok t =>
    if t.secret = JWT_SECRET ∧ now < t.exp then
      match store with
      | .error msg => .storeError msg
      | .ok db =>
        match db.find? (fun r => decide (t.claims.fileId? = some r.id)
            && r.is_shared && decide (r.share_token = some t)) with
        | none => .notFound
        | some f => if disk f.file_path then .ok f.file_path f.original_name else .physMissing
    else .invalidToken

/-- Outcome of `POST /api/login`. -/
inductive LoginResult where
  | validationError
  | storeError (details : String)
  | invalidCredentials
  | ok (token : Token) (id : Nat) (username email : String)
deriving DecidableEq, Repr

/-- `POST /api/login` handler (server.js:144-186): 400 on an empty
username or password, single user row by `username`,
401 `Credenciales inválidas` when absent, `bcrypt.compare` of the
supplied password against the stored hash (the abstract `compare`),
401 `Credenciales inválidas` on mismatch, else a 24h Access Token
claiming `{ id, username }`. -/
def login (users : Except String (List UserRow)) (compare : String → String → Bool)
    (username password : String) (now : Nat) : LoginResult :=
  if username = "" ∨ password = "" then .validationError
  else
    match users with
    | .error msg => .storeError msg
    | .ok us =>
      match us.find? (fun u => decide (u.username = username)) with
      | none => .invalidCredentials
      | some u =>
        if compare password u.password then
          .ok (sign (.access u.id u.username) JWT_SECRET now (24 * 60 * 60))
            u.id u.username u.email
        else .invalidCredentials

/-! ## Multer upload filter -/

/-- `p` is a prefix of the second list. -/
def isPre : List Char → List Char → Bool
  | [], _ => true
  | _ :: _, [] => false
  | a :: p, b :: s => a == b && isPre p s

/-- `p` occurs as a contiguous substring of the second list: the unanchored
semantics of JavaScript `RegExp.test` for a literal alternative `p`. -/
def containsSub (p : List Char) : List Char → Bool
  | [] => isPre p []
  | c :: t => isPre p (c :: t) || containsSub p t

/-- The alternatives of the literal regex
`/jpeg|jpg|png|gif|pdf|txt|doc|docx|xls|xlsx|zip|rar/` (server.js:70). -/
def allowedTypes : List String :=
  ["jpeg", "jpg", "png", "gif", "pdf", "txt", "doc", "docx", "xls", "xlsx", "zip", "rar"]

/-- `allowedTypes.test(s)`: the unanchored regex matches iff some
alternative occurs somewhere in `s`. -/
def regexTest (s : String) : Bool :=
  allowedTypes.any fun w => containsSub w.data s.data

/-- `String.prototype.toLowerCase` on the characters of `s`. -/
def toLowerStr (s : String) : String := ⟨s.data.map Char.toLower⟩

/-- Node `path.extname` on a bare filename (no directory separators occur
in `file.originalname` here): the substring from the last `.` to the end,
unless that `.` is the first character or there is none, in which case
the empty string. -/
def extname (s : String) : String :=
  let cs := s.data
  match ((List.range cs.length).filter fun i => cs.getD i ' ' == '.').getLast? with
  | some i => if i > 0 then ⟨cs.drop i⟩ else ""
  | none => ""

/-- The multer `fileFilter` (server.js:68-79): accepts iff the unanchored
allow-list regex matches both the lower-cased `path.extname` of the
original name and the declared mime type; otherwise the upload fails with
`Tipo de archivo no permitido`. -/
def fileFilter (originalname mimetype : String) : Bool :=
  let extnameOk := regexTest (toLowerStr (extname originalname))
  let mimetypeOk := regexTest mimetype
  mimetypeOk && extnameOk

/-! ## Deletion -/

/-- `deleteFile` from `src/server/cloudinary.js:43-51`: forwards to
`cloudinary.uploader.destroy(publicId)` (the abstract `destroy`),
returning its result and re-throwing its failure after logging. -/
def deleteFile (destroy : String → Except String String) (publicId : String) :
    Except String String :=
  destroy publicId

/-- Outcome of `DELETE /files/:id`; `cleanupFailed` records whether the
backing-object deletion failed and was reported. -/
inductive DeleteResult where
  | notFound
  | ok (cleanupFailed : Bool)
deriving DecidableEq, Repr

/-- Modelled from the spec: the `DELETE /files/:id` route handler is not
present under `src/` (only §4.3 `Delete` and §6 describe it, and
`cloudinary.js` supplies the backing-object `deleteFile`). Per §4.3:
ownership-scoped lookup (same rule as Download), 404 when no row of the
caller matches; on a hit, delete the backing object through `deleteFile`
and remove the registry row, where a backing-object failure does not
block registry removal but is reported. -/
def deleteHandler (db : DB) (destroy : String → Except String String)
    (userId : Option Nat) (fileId : Nat) : DB × DeleteResult :=
  match db.find? (fun r => decide (r.id = fileId) && decide (userId = some r.user_id)) with
  | none => (db, .notFound)
  | some f =>
    let objResult := deleteFile destroy f.file_path
    let db' := db.filter fun r =>
      !(decide (r.id = fileId) && decide (userId = some r.user_id))
    (db', .ok (match objResult with | .ok _ => false | .error _ => true))

/-! ## Helper lemmas -/

/-- Split a true boolean conjunction. -/
theorem and_split {a b : Bool} (h : (a && b) = true) : a = true ∧ b = true := by
  cases a <;> cases b <;> simp_all

instance (db : DB) : Decidable (wellFormed db) := by
  unfold wellFormed; infer_instance

/-- Filtering by a weaker predicate does not change the first hit of a
stronger one. -/
theorem find?_filter_of_imp {α} (p q : α → Bool) (l : List α)
    (h : ∀ a, p a = true → q a = true) : (l.filter q).find? p = l.find? p := by
  induction l with
  | nil => rfl
  | cons a t ih =>
    by_cases hq : q a = true
    · rw [List.filter_cons_of_pos hq]
      by_cases hp : p a = true
      · rw [List.find?_cons_of_pos _ hp, List.find?_cons_of_pos _ hp]
      · rw [List.find?_cons_of_neg _ (by simpa using hp),
          List.find?_cons_of_neg _ (by simpa using hp)]
        exact ih
    · rw [List.filter_cons_of_neg (by simpa using hq)]
      by_cases hp : p a = true
      · exact absurd (h a hp) hq
      · rw [List.find?_cons_of_neg _ (by simpa using hp)]
        exact ih

/-- If `a` is the unique element of `l` satisfying `p`, `find?` returns it. -/
theorem find?_unique {α} (p : α → Bool) (a : α) :
    ∀ l : List α, a ∈ l → p a = true → (∀ b ∈ l, p b = true → b = a) →
      l.find? p = some a := by
  intro l
  induction l with
  | nil => intro h; cases h
  | cons b t ih =>
    intro ha hpa huniq
    by_cases hpb : p b = true
    · rw [List.find?_cons_of_pos _ hpb, huniq b (List.mem_cons_self b t) hpb]
    · rw [List.find?_cons_of_neg _ (by simpa using hpb)]
      have ha' : a ∈ t := by
        rcases List.mem_cons.mp ha with h | h
        · exact absurd (h ▸ hpa) hpb
        · exact h
      exact ih ha' hpa fun c hc hpc => huniq c (List.mem_cons_of_mem _ hc) hpc

/-- In a well-formed `files` table, rows are determined by their id. -/
theorem row_unique {db : DB} (h : wellFormed db) {r s : FileRow}
    (hr : r ∈ db) (hs : s ∈ db) (hid : r.id = s.id) : r = s :=
  List.inj_on_of_nodup_map h hr hs hid

/-- The store state after the share handler's single update statement. -/
theorem shareHandler_fst (db : DB) (userId : Option Nat) (fid now : Nat)
    (protocol host : String) :
    (shareHandler (.ok db) userId fid now protocol host).1 =
      .ok (db.map fun r =>
        if decide (r.id = fid) && decide (userId = some r.user_id) then
          { r with is_shared := true,
                   share_token := some (sign (.share fid) JWT_SECRET now (7 * 24 * 60 * 60)) }
        else r) := by
  simp only [shareHandler]
  split <;> rfl

/-- The share update does not touch a row's id. -/
theorem id_of_share_map (fid : Nat) (uid? : Option Nat) (tok : Token) (q : FileRow) :
    ((if decide (q.id = fid) && decide (uid? = some q.user_id) then
      { q with is_shared := true, share_token := some tok } else q) : FileRow).id = q.id := by
  split <;> rfl

/-- The share update does not touch a row's owner. -/
theorem user_id_of_share_map (fid : Nat) (uid? : Option Nat) (tok : Token) (q : FileRow) :
    ((if decide (q.id = fid) && decide (uid? = some q.user_id) then
      { q with is_shared := true, share_token := some tok } else q) : FileRow).user_id
      = q.user_id := by
  split <;> rfl

/-- The share handler answers success with the newly minted token whenever
the caller owns a matching row. -/
theorem shareHandler_snd (db : DB) (uid? : Option Nat) (fid now : Nat)
    (protocol host : String) (r : FileRow)
    (hr : r ∈ db) (hid : r.id = fid) (huid : uid? = some r.user_id) :
    (shareHandler (.ok db) uid? fid now protocol host).2
      = .ok protocol host (sign (.share fid) JWT_SECRET now (7 * 24 * 60 * 60)) := by
  have hmem : r ∈ db.filter (fun s => decide (s.id = fid) && decide (uid? = some s.user_id)) :=
    List.mem_filter.mpr ⟨hr, by rw [hid, huid]; simp⟩
  have hne : (db.filter
      (fun s => decide (s.id = fid) && decide (uid? = some s.user_id))).isEmpty = false := by
    cases hfil : db.filter (fun s => decide (s.id = fid) && decide (uid? = some s.user_id)) with
    | nil => rw [hfil] at hmem; cases hmem
    | cons a l => rfl
  simp only [shareHandler, hne]
  rfl

/-- Applying the share update twice (with tokens `tokA` then `tokB`)
leaves the table exactly as one update with `tokB` would. -/
theorem share_map_twice (db : DB) (uid? : Option Nat) (fid : Nat) (tokA tokB : Token) :
    (db.map fun q => if decide (q.id = fid) && decide (uid? = some q.user_id) then
        { q with is_shared := true, share_token := some tokA } else q).map
      (fun q => if decide (q.id = fid) && decide (uid? = some q.user_id) then
        { q with is_shared := true, share_token := some tokB } else q)
    = db.map fun q => if decide (q.id = fid) && decide (uid? = some q.user_id) then
        { q with is_shared := true, share_token := some tokB } else q := by
  induction db with
  | nil => rfl
  | cons q t ih =>
    simp only [List.map_cons]
    rw [ih]
    by_cases hc : (decide (q.id = fid) && decide (uid? = some q.user_id)) = true
    · rw [if_pos hc, if_pos hc, if_pos hc]
    · rw [if_neg hc, if_neg hc]

/-- `GET /api/shared/:token` on a table whose only row with id `fid` has
just been share-updated with `tok`: a verified presented token `pres`
claiming `fid` redeems iff it is exactly the stored token. -/
theorem redeem_on_shared_db (db : DB) (disk : String → Bool) (uid fid now : Nat)
    (tok pres : Token) (hwf : wellFormed db)
    {r : FileRow} (hr : r ∈ db) (hid : r.id = fid) (huid : r.user_id = uid)
    (hsec : pres.secret = JWT_SECRET) (hexp : now < pres.exp)
    (hfid : pres.claims.fileId? = some fid) :
    redeemShare (.ok (db.map fun q =>
        if decide (q.id = fid) && decide ((some uid : Option Nat) = some q.user_id) then
          { q with is_shared := true, share_token := some tok } else q)) disk (.tok pres) now
      = if pres = tok then
          (if disk r.file_path then .ok r.file_path r.original_name else .physMissing)
        else .notFound := by
  have hcond : (decide (r.id = fid) && decide ((some uid : Option Nat) = some r.user_id)) = true := by
    rw [hid, huid]; simp
  have himg : ∀ s ∈ db.map (fun q =>
      if decide (q.id = fid) && decide ((some uid : Option Nat) = some q.user_id) then
        { q with is_shared := true, share_token := some tok } else q),
      s.id = fid → s = { r with is_shared := true, share_token := some tok } := by
    intro s hs hsid
    obtain ⟨q, hq, hfq⟩ := List.mem_map.mp hs
    have hqid : q.id = fid := by
      rw [← id_of_share_map fid (some uid) tok q, hfq, hsid]
    have hqr : q = r := row_unique hwf hq hr (by rw [hqid, hid])
    rw [← hfq, hqr, if_pos hcond]
  simp only [redeemShare]
  rw [if_pos ⟨hsec, hexp⟩]
  by_cases heq : pres = tok
  · subst heq
    have hfind : (db.map fun q =>
        if decide (q.id = fid) && decide ((some uid : Option Nat) = some q.user_id) then
          { q with is_shared := true, share_token := some pres } else q).find?
        (fun s => decide (pres.claims.fileId? = some s.id) && s.is_shared
          && decide (s.share_token = some pres))
        = some { r with is_shared := true, share_token := some pres } := by
      apply find?_unique
      · exact List.mem_map.mpr ⟨r, hr, by rw [if_pos hcond]⟩
      · rw [hfid]
        simp [hid]
      · intro b hb hpb
        rcases and_split hpb with ⟨h12, -⟩
        rcases and_split h12 with ⟨h1, -⟩
        have hb1 : pres.claims.fileId? = some b.id := of_decide_eq_true h1
        have hbid : b.id = fid := by
          rw [hfid] at hb1
          exact (Option.some.inj hb1).symm
        exact himg b hb hbid
    rw [hfind, if_pos rfl]
  · have hfind : (db.map fun q =>
        if decide (q.id = fid) && decide ((some uid : Option Nat) = some q.user_id) then
          { q with is_shared := true, share_token := some tok } else q).find?
        (fun s => decide (pres.claims.fileId? = some s.id) && s.is_shared
          && decide (s.share_token = some pres))
        = none := by
      rw [List.find?_eq_none]
      intro s hs hps
      rcases and_split hps with ⟨h12, h3⟩
      rcases and_split h12 with ⟨h1, -⟩
      have hs1 : pres.claims.fileId? = some s.id := of_decide_eq_true h1
      have hsid : s.id = fid := by
        rw [hfid] at hs1
        exact (Option.some.inj hs1).symm
      have hseq := himg s hs hsid
      have hst : s.share_token = some pres := of_decide_eq_true h3
      rw [hseq] at hst
      exact heq (Option.some.inj hst).symm
    rw [hfind, if_neg heq]

/-! ## Claims -/

/-- C1: every owner-restricted operation scopes its File Registry query or
mutation by the caller's user id: the List result only holds rows owned by
the caller; Download computes the same answer on the table restricted to
the caller's rows (rows of other owners are never consulted); and the
Share update leaves every row of another owner unchanged (present before
iff present after, row for row). -/
theorem C1_owner_scoped_queries (db : DB) (disk : String → Bool)
    (uid fid now : Nat) (protocol host : String) :
    (∀ fs, listFiles (.ok db) (some uid) = .ok fs → ∀ r ∈ fs, r.user_id = uid) ∧
    download (.ok db) disk (some uid) fid
      = download (.ok (db.filter fun r => decide (r.user_id = uid))) disk (some uid) fid ∧
    (∀ store' res, shareHandler (.ok db) (some uid) fid now protocol host = (store', res) →
      ∃ db', store' = .ok db' ∧
        (∀ r ∈ db, r.user_id ≠ uid → r ∈ db') ∧
        (∀ s ∈ db', s.user_id ≠ uid → s ∈ db)) := by
  refine ⟨?_, ?_, ?_⟩
  · intro fs h r hr
    simp only [listFiles, ListResult.ok.injEq] at h
    subst h
    have h2 := (List.mem_filter.mp hr).2
    exact (Option.some.inj (of_decide_eq_true h2)).symm
  · have hpq : ∀ r : FileRow,
        (decide (r.id = fid) && decide ((some uid : Option Nat) = some r.user_id)) = true →
        decide (r.user_id = uid) = true := by
      intro r hr
      rcases and_split hr with ⟨-, h2⟩
      exact decide_eq_true (Option.some.inj (of_decide_eq_true h2)).symm
    simp only [download]
    rw [find?_filter_of_imp _ _ db hpq]
  · intro store' res h
    have hf := shareHandler_fst db (some uid) fid now protocol host
    rw [h] at hf
    refine ⟨_, hf, ?_, ?_⟩
    · intro r hr hne
      have hcond : (decide (r.id = fid)
          && decide ((some uid : Option Nat) = some r.user_id)) = false := by
        have h2 : decide ((some uid : Option Nat) = some r.user_id) = false :=
          decide_eq_false fun hc => hne (Option.some.inj hc).symm
        rw [h2, Bool.and_false]
      refine List.mem_map.mpr ⟨r, hr, ?_⟩
      show (if _ = true then _ else r) = r
      rw [if_neg fun hc => Bool.false_ne_true (hcond ▸ hc)]
    · intro s hs hne
      obtain ⟨r, hr, hfr⟩ := List.mem_map.mp hs
      by_cases hc : (decide (r.id = fid)
          && decide ((some uid : Option Nat) = some r.user_id)) = true
      · exfalso
        rcases and_split hc with ⟨-, h2⟩
        have huid : r.user_id = uid := (Option.some.inj (of_decide_eq_true h2)).symm
        rw [if_pos hc] at hfr
        rw [← hfr] at hne
        exact hne huid
      · rw [if_neg hc] at hfr
        rw [← hfr]
        exact hr

/-- Witness for C1 on a concrete two-owner table. -/
theorem C1_owner_scoped_queries_witness :
    download (.ok [⟨1, 10, "a", "a.txt", "/u/10/a", 5, "text/plain", false, none, 0⟩,
        ⟨2, 11, "b", "b.pdf", "/u/11/b", 6, "application/pdf", false, none, 0⟩])
        (fun _ => true) (some 10) 1
      = download (.ok (([⟨1, 10, "a", "a.txt", "/u/10/a", 5, "text/plain", false, none, 0⟩,
          ⟨2, 11, "b", "b.pdf", "/u/11/b", 6, "application/pdf", false, none, 0⟩] : DB).filter
          fun r => decide (r.user_id = 10))) (fun _ => true) (some 10) 1 ∧
    (∃ db', (shareHandler
        (.ok [⟨1, 10, "a", "a.txt", "/u/10/a", 5, "text/plain", false, none, 0⟩,
          ⟨2, 11, "b", "b.pdf", "/u/11/b", 6, "application/pdf", false, none, 0⟩])
        (some 10) 1 0 "http" "h").1 = .ok db' ∧
      (⟨2, 11, "b", "b.pdf", "/u/11/b", 6, "application/pdf", false, none, 0⟩ : FileRow) ∈ db') := by
  obtain ⟨h1, h2, h3⟩ := C1_owner_scoped_queries
    [⟨1, 10, "a", "a.txt", "/u/10/a", 5, "text/plain", false, none, 0⟩,
      ⟨2, 11, "b", "b.pdf", "/u/11/b", 6, "application/pdf", false, none, 0⟩]
    (fun _ => true) 10 1 0 "http" "h"
  refine ⟨h2, ?_⟩
  obtain ⟨db', hdb', hfwd, -⟩ := h3 _ _ rfl
  exact ⟨db', hdb', hfwd _ (by decide) (by decide)⟩

/-- C2: Download succeeds for the owner of an existing file; when the file
id does not exist at all, and equally when it exists but is owned by a
different user, it returns the one result `.notFound` (404
`Archivo no encontrado`) — the same value in both cases, so no outcome
distinguishes them, and no `Forbidden` outcome exists on this path. -/
theorem C2_download_notfound_conflation (db : DB) (disk : String → Bool)
    (uid fid : Nat) :
    (∀ r, wellFormed db → r ∈ db → r.id = fid → r.user_id = uid →
      disk r.file_path = true →
      download (.ok db) disk (some uid) fid = .ok r.file_path r.original_name) ∧
    ((∀ r ∈ db, r.id ≠ fid) →
      download (.ok db) disk (some uid) fid = .notFound) ∧
    ((∃ r ∈ db, r.id = fid) → (∀ r ∈ db, r.id = fid → r.user_id ≠ uid) →
      download (.ok db) disk (some uid) fid = .notFound) := by
  refine ⟨?_, ?_, ?_⟩
  · intro r hwf hr hid huid hdisk
    have hfind : db.find? (fun s => decide (s.id = fid)
        && decide ((some uid : Option Nat) = some s.user_id)) = some r := by
      apply find?_unique _ r db hr
      · rw [hid, huid]
        simp
      · intro b hb hpb
        rcases and_split hpb with ⟨h1, -⟩
        exact row_unique hwf hb hr ((of_decide_eq_true h1).trans hid.symm)
    simp only [download, hfind, hdisk, if_true]
  · intro hnone
    have hfind : db.find? (fun s => decide (s.id = fid)
        && decide ((some uid : Option Nat) = some s.user_id)) = none := by
      rw [List.find?_eq_none]
      intro s hs hps
      rcases and_split hps with ⟨h1, -⟩
      exact hnone s hs (of_decide_eq_true h1)
    simp only [download, hfind]
  · intro _ hother
    have hfind : db.find? (fun s => decide (s.id = fid)
        && decide ((some uid : Option Nat) = some s.user_id)) = none := by
      rw [List.find?_eq_none]
      intro s hs hps
      rcases and_split hps with ⟨h1, h2⟩
      exact hother s hs (of_decide_eq_true h1)
        (Option.some.inj (of_decide_eq_true h2)).symm
    simp only [download, hfind]

/-- Witness for C2: owner download succeeds; a nonexistent id and a
foreign owner's id both give exactly `.notFound`. -/
theorem C2_download_notfound_conflation_witness :
    download (.ok [⟨1, 10, "a", "notes.txt", "/u/10/a", 5, "text/plain", false, none, 0⟩])
        (fun _ => true) (some 10) 1 = .ok "/u/10/a" "notes.txt" ∧
    download (.ok [⟨1, 10, "a", "notes.txt", "/u/10/a", 5, "text/plain", false, none, 0⟩])
        (fun _ => true) (some 10) 2 = .notFound ∧
    download (.ok [⟨1, 10, "a", "notes.txt", "/u/10/a", 5, "text/plain", false, none, 0⟩])
        (fun _ => true) (some 11) 1 = .notFound := by
  refine ⟨?_, ?_, ?_⟩
  · exact (C2_download_notfound_conflation
      [⟨1, 10, "a", "notes.txt", "/u/10/a", 5, "text/plain", false, none, 0⟩]
      (fun _ => true) 10 1).1
      ⟨1, 10, "a", "notes.txt", "/u/10/a", 5, "text/plain", false, none, 0⟩
      (by decide) (by decide) rfl rfl rfl
  · exact (C2_download_notfound_conflation
      [⟨1, 10, "a", "notes.txt", "/u/10/a", 5, "text/plain", false, none, 0⟩]
      (fun _ => true) 10 2).2.1 (by decide)
  · exact (C2_download_notfound_conflation
      [⟨1, 10, "a", "notes.txt", "/u/10/a", 5, "text/plain", false, none, 0⟩]
      (fun _ => true) 11 1).2.2
      ⟨⟨1, 10, "a", "notes.txt", "/u/10/a", 5, "text/plain", false, none, 0⟩, by decide, rfl⟩
      (by decide)

/-- C3: sharing the same file twice (at distinct issue times `t1 ≠ t2`,
both tokens still within their 7-day expiry at redemption time) yields
first `tok1` then `tok2`; afterwards redeeming `tok1` fails (`.notFound`)
and redeeming `tok2` succeeds. In general a redeem succeeds only if the
presented token is well-formed, signature- and expiry-valid, and its
decoded `fileId` names a row with `is_shared = true` whose stored share
token equals the presented token exactly. -/
theorem C3_share_rotation (db : DB) (disk : String → Bool)
    (uid fid t1 t2 now : Nat) (protocol host : String) (r : FileRow)
    (hwf : wellFormed db) (hr : r ∈ db) (hid : r.id = fid) (huid : r.user_id = uid)
    (hne : t1 ≠ t2) (hdisk : disk r.file_path = true)
    (hnow1 : now < t1 + 7 * 24 * 60 * 60) (hnow2 : now < t2 + 7 * 24 * 60 * 60) :
    ((shareHandler (.ok db) (some uid) fid t1 protocol host).2
        = .ok protocol host (sign (.share fid) JWT_SECRET t1 (7 * 24 * 60 * 60)) ∧
      (shareHandler (shareHandler (.ok db) (some uid) fid t1 protocol host).1
          (some uid) fid t2 protocol host).2
        = .ok protocol host (sign (.share fid) JWT_SECRET t2 (7 * 24 * 60 * 60)) ∧
      redeemShare (shareHandler (shareHandler (.ok db) (some uid) fid t1 protocol host).1
          (some uid) fid t2 protocol host).1 disk
          (.tok (sign (.share fid) JWT_SECRET t1 (7 * 24 * 60 * 60))) now = .notFound ∧
      redeemShare (shareHandler (shareHandler (.ok db) (some uid) fid t1 protocol host).1
          (some uid) fid t2 protocol host).1 disk
          (.tok (sign (.share fid) JWT_SECRET t2 (7 * 24 * 60 * 60))) now
        = .ok r.file_path r.original_name) ∧
    (∀ store p fp oname, redeemShare store disk p now = .ok fp oname →
      ∃ t db' s, p = .tok t ∧ store = .ok db' ∧ t.secret = JWT_SECRET ∧ now < t.exp ∧
        s ∈ db' ∧ t.claims.fileId? = some s.id ∧ s.is_shared = true ∧
        s.share_token = some t) := by
  have hcond : (decide (r.id = fid)
      && decide ((some uid : Option Nat) = some r.user_id)) = true := by
    rw [hid, huid]; simp
  refine ⟨⟨?_, ?_, ?_, ?_⟩, ?_⟩
  · exact shareHandler_snd db (some uid) fid t1 protocol host r hr hid (by rw [huid])
  · rw [shareHandler_fst]
    exact shareHandler_snd _ (some uid) fid t2 protocol host
      { r with is_shared := true,
               share_token := some (sign (.share fid) JWT_SECRET t1 (7 * 24 * 60 * 60)) }
      (List.mem_map.mpr ⟨r, hr, by rw [if_pos hcond]⟩) hid
      (show (some uid : Option Nat) = some r.user_id by rw [huid])
  · rw [shareHandler_fst, shareHandler_fst, share_map_twice]
    rw [redeem_on_shared_db db disk uid fid now
      (sign (.share fid) JWT_SECRET t2 (7 * 24 * 60 * 60))
      (sign (.share fid) JWT_SECRET t1 (7 * 24 * 60 * 60))
      hwf hr hid huid rfl hnow1 rfl]
    rw [if_neg fun hcontra => hne (congrArg Token.iat hcontra)]
  · rw [shareHandler_fst, shareHandler_fst, share_map_twice]
    rw [redeem_on_shared_db db disk uid fid now
      (sign (.share fid) JWT_SECRET t2 (7 * 24 * 60 * 60))
      (sign (.share fid) JWT_SECRET t2 (7 * 24 * 60 * 60))
      hwf hr hid huid rfl hnow2 rfl]
    rw [if_pos rfl, if_pos hdisk]
  · intro store p fp oname h
    cases p with
    | malformed => simp [redeemShare] at h
    | tok t =>
      simp only [redeemShare] at h
      by_cases hg : t.secret = JWT_SECRET ∧ now < t.exp
      · rw [if_pos hg] at h
        cases store with
        | error m => simp at h
        | ok db' =>
          have h' : (match db'.find? (fun s => decide (t.claims.fileId? = some s.id)
                && s.is_shared && decide (s.share_token = some t)) with
              | none => RedeemResult.notFound
              | some f => if disk f.file_path then
                    RedeemResult.ok f.file_path f.original_name
                  else RedeemResult.physMissing) = RedeemResult.ok fp oname := h
          cases hfind : db'.find? (fun s => decide (t.claims.fileId? = some s.id)
              && s.is_shared && decide (s.share_token = some t)) with
          | none => rw [hfind] at h'; simp at h'
          | some f =>
            rw [hfind] at h'
            by_cases hd : disk f.file_path = true
            · have hp := List.find?_some hfind
              rcases and_split hp with ⟨h12, h3⟩
              rcases and_split h12 with ⟨h1, h2⟩
              exact ⟨t, db', f, rfl, rfl, hg.1, hg.2, List.mem_of_find?_eq_some hfind,
                of_decide_eq_true h1, h2, of_decide_eq_true h3⟩
            · have h'' : (if disk f.file_path then
                    RedeemResult.ok f.file_path f.original_name
                  else RedeemResult.physMissing) = RedeemResult.ok fp oname := h'
              rw [if_neg hd] at h''
              simp at h''
      · rw [if_neg hg] at h; simp at h

/-- Witness for C3 on a one-row table: sharing at times 0 then 1,
redeeming at time 2. -/
theorem C3_share_rotation_witness :
    (shareHandler (.ok [⟨1, 10, "a", "notes.txt", "/u/10/a", 5, "text/plain", false, none, 0⟩])
        (some 10) 1 0 "http" "h").2
      = .ok "http" "h" (sign (.share 1) JWT_SECRET 0 (7 * 24 * 60 * 60)) ∧
    redeemShare (shareHandler (shareHandler
        (.ok [⟨1, 10, "a", "notes.txt", "/u/10/a", 5, "text/plain", false, none, 0⟩])
        (some 10) 1 0 "http" "h").1 (some 10) 1 1 "http" "h").1 (fun _ => true)
        (.tok (sign (.share 1) JWT_SECRET 0 (7 * 24 * 60 * 60))) 2 = .notFound ∧
    redeemShare (shareHandler (shareHandler
        (.ok [⟨1, 10, "a", "notes.txt", "/u/10/a", 5, "text/plain", false, none, 0⟩])
        (some 10) 1 0 "http" "h").1 (some 10) 1 1 "http" "h").1 (fun _ => true)
        (.tok (sign (.share 1) JWT_SECRET 1 (7 * 24 * 60 * 60))) 2
      = .ok "/u/10/a" "notes.txt" := by
  obtain ⟨⟨h1, h2, h3, h4⟩, -⟩ := C3_share_rotation
    [⟨1, 10, "a", "notes.txt", "/u/10/a", 5, "text/plain", false, none, 0⟩]
    (fun _ => true) 10 1 0 1 2 "http" "h"
    ⟨1, 10, "a", "notes.txt", "/u/10/a", 5, "text/plain", false, none, 0⟩
    (by decide) (by decide) rfl rfl (by decide) rfl (by decide) (by decide)
  exact ⟨h1, h3, h4⟩

/-- C4 counterexample: a Share Token (claims `{fileId: 1}`) presented as
an Access Token does NOT fail — `authenticateToken` accepts it (no error
response is sent, no schema check happens) and the authenticated List
operation then completes normally with an empty result. -/
theorem C4_counterexample :
    authenticateToken (some (.tok (sign (.share 1) JWT_SECRET 0 (7 * 24 * 60 * 60)))) 0
      = .ok (.share 1) ∧
    authResponse (authenticateToken
      (some (.tok (sign (.share 1) JWT_SECRET 0 (7 * 24 * 60 * 60)))) 0) = none ∧
    listFiles (.ok [⟨1, 10, "a", "notes.txt", "/u/10/a", 5, "text/plain", false, none, 0⟩])
      (Claims.share 1).userId? = .ok [] := by
  decide

/-- C4 (amended): an Access Token presented to RedeemShare fails with
`.notFound` (its claims carry no `fileId`, so no row matches); but a
Share Token presented as an Access Token is not rejected: the middleware
does no schema check after signature verification, authentication
succeeds with claims lacking a user id, and the owner-scoped List then
merely matches no rows (succeeds with the empty list). -/
theorem C4_no_schema_check (t t' : Token) (i fidv now : Nat) (u : String)
    (db : DB) (disk : String → Bool)
    (hacc : t.claims = .access i u) (hsec : t.secret = JWT_SECRET) (hexp : now < t.exp)
    (hsh : t'.claims = .share fidv) (hsec' : t'.secret = JWT_SECRET)
    (hexp' : now < t'.exp) :
    redeemShare (.ok db) disk (.tok t) now = .notFound ∧
    authenticateToken (some (.tok t')) now = .ok t'.claims ∧
    listFiles (.ok db) t'.claims.userId? = .ok [] := by
  refine ⟨?_, ?_, ?_⟩
  · simp only [redeemShare]
    rw [if_pos ⟨hsec, hexp⟩]
    have hfind : db.find? (fun s => decide (t.claims.fileId? = some s.id)
        && s.is_shared && decide (s.share_token = some t)) = none := by
      rw [List.find?_eq_none]
      intro s hs hps
      rcases and_split hps with ⟨h12, -⟩
      rcases and_split h12 with ⟨h1, -⟩
      have h1' := of_decide_eq_true h1
      rw [hacc] at h1'
      simp [Claims.fileId?] at h1'
    rw [hfind]
  · simp only [authenticateToken, verify]
    rw [if_pos ⟨hsec', hexp'⟩]
  · rw [hsh]
    show listFiles (.ok db) none = .ok []
    simp only [listFiles, ListResult.ok.injEq]
    induction db with
    | nil => rfl
    | cons a l ih =>
      rw [List.filter_cons_of_neg (by simp)]
      exact ih

/-- Witness for C4's amended statement with a concrete access token, a
concrete share token and a one-row table. -/
theorem C4_no_schema_check_witness :
    redeemShare (.ok [⟨1, 10, "a", "notes.txt", "/u/10/a", 5, "text/plain", false, none, 0⟩])
        (fun _ => true) (.tok (sign (.access 10 "alice") JWT_SECRET 0 (24 * 60 * 60))) 0
      = .notFound ∧
    authenticateToken (some (.tok (sign (.share 1) JWT_SECRET 0 (7 * 24 * 60 * 60)))) 0
      = .ok (sign (.share 1) JWT_SECRET 0 (7 * 24 * 60 * 60)).claims ∧
    listFiles (.ok [⟨1, 10, "a", "notes.txt", "/u/10/a", 5, "text/plain", false, none, 0⟩])
      (sign (.share 1) JWT_SECRET 0 (7 * 24 * 60 * 60)).claims.userId? = .ok [] :=
  C4_no_schema_check (sign (.access 10 "alice") JWT_SECRET 0 (24 * 60 * 60))
    (sign (.share 1) JWT_SECRET 0 (7 * 24 * 60 * 60)) 10 1 0 "alice"
    [⟨1, 10, "a", "notes.txt", "/u/10/a", 5, "text/plain", false, none, 0⟩]
    (fun _ => true) rfl rfl (by decide) rfl rfl (by decide)

/-- C5: a login whose username matches no user and a login whose username
matches but whose password fails `bcrypt.compare` produce the identical
result `.invalidCredentials` (401 `Credenciales inválidas`) — the two
failure runs are indistinguishable. -/
theorem C5_login_indistinguishable (users : List UserRow)
    (compare : String → String → Bool) (uname pw : String) (now : Nat)
    (hu : uname ≠ "") (hp : pw ≠ "") :
    (users.find? (fun u => decide (u.username = uname)) = none →
      login (.ok users) compare uname pw now = .invalidCredentials) ∧
    (∀ u, users.find? (fun u => decide (u.username = uname)) = some u →
      compare pw u.password = false →
      login (.ok users) compare uname pw now = .invalidCredentials) := by
  have hval : ¬(uname = "" ∨ pw = "") := by
    rintro (h | h)
    exacts [hu h, hp h]
  constructor
  · intro hfind
    simp only [login, if_neg hval, hfind]
  · intro u hfind hcmp
    simp only [login, if_neg hval, hfind, hcmp]
    rfl

/-- Witness for C5: nonexistent username and wrong password give the same
result on a concrete user table. -/
theorem C5_login_indistinguishable_witness :
    login (.ok [⟨10, "alice", "a@x.com", "HASH"⟩]) (fun _ _ => false) "bob" "x" 0
      = .invalidCredentials ∧
    login (.ok [⟨10, "alice", "a@x.com", "HASH"⟩]) (fun _ _ => false) "alice" "x" 0
      = .invalidCredentials := by
  refine ⟨?_, ?_⟩
  · exact (C5_login_indistinguishable [⟨10, "alice", "a@x.com", "HASH"⟩]
      (fun _ _ => false) "bob" "x" 0 (by decide) (by decide)).1 (by decide)
  · exact (C5_login_indistinguishable [⟨10, "alice", "a@x.com", "HASH"⟩]
      (fun _ _ => false) "alice" "x" 0 (by decide) (by decide)).2
      ⟨10, "alice", "a@x.com", "HASH"⟩ (by decide) rfl

/-- C6 (spec-modelled Delete): for the owner, deletion removes the
registry row (no row with that id remains; all other rows survive) and
reports `.ok` with the backing-object outcome — a failing `destroy` only
sets the reported flag and never blocks registry removal; for a caller
owning no matching row the table is untouched and the result is
`.notFound`. -/
theorem C6_delete_scoped (db : DB) (destroy : String → Except String String)
    (uid uid2 fid : Nat) (r : FileRow)
    (hwf : wellFormed db) (hr : r ∈ db) (hid : r.id = fid) (huid : r.user_id = uid) :
    ((∀ s ∈ (deleteHandler db destroy (some uid) fid).1, s.id ≠ fid) ∧
      (∀ s ∈ db, s.id ≠ fid → s ∈ (deleteHandler db destroy (some uid) fid).1) ∧
      (deleteHandler db destroy (some uid) fid).2
        = .ok (match destroy r.file_path with | .ok _ => false | .error _ => true)) ∧
    ((∀ s ∈ db, ¬(s.id = fid ∧ s.user_id = uid2)) →
      deleteHandler db destroy (some uid2) fid = (db, .notFound)) := by
  have hcond : (decide (r.id = fid)
      && decide ((some uid : Option Nat) = some r.user_id)) = true := by
    rw [hid, huid]; simp
  have hfind : db.find? (fun s => decide (s.id = fid)
      && decide ((some uid : Option Nat) = some s.user_id)) = some r := by
    apply find?_unique _ r db hr hcond
    intro b hb hpb
    rcases and_split hpb with ⟨h1, -⟩
    exact row_unique hwf hb hr ((of_decide_eq_true h1).trans hid.symm)
  refine ⟨⟨?_, ?_, ?_⟩, ?_⟩
  · intro s hs hsid
    simp only [deleteHandler, hfind] at hs
    have hsdb : s ∈ db := List.mem_of_mem_filter hs
    have hsr : s = r := row_unique hwf hsdb hr (hsid.trans hid.symm)
    have hkeep := (List.mem_filter.mp hs).2
    rw [hsr, hcond] at hkeep
    simp at hkeep
  · intro s hs hsid
    simp only [deleteHandler, hfind]
    refine List.mem_filter.mpr ⟨hs, ?_⟩
    have h1 : decide (s.id = fid) = false := decide_eq_false hsid
    rw [h1, Bool.false_and]
    rfl
  · simp only [deleteHandler, hfind]
    rfl
  · intro hnone
    have hfind2 : db.find? (fun s => decide (s.id = fid)
        && decide ((some uid2 : Option Nat) = some s.user_id)) = none := by
      rw [List.find?_eq_none]
      intro s hs hps
      rcases and_split hps with ⟨h1, h2⟩
      exact hnone s hs ⟨of_decide_eq_true h1,
        (Option.some.inj (of_decide_eq_true h2)).symm⟩
    simp only [deleteHandler, hfind2]

/-- Witness for C6 on a one-row table: successful and failing backing
deletion both remove the row, reporting the backing outcome; a foreign
caller gets `.notFound` with the table untouched. -/
theorem C6_delete_scoped_witness :
    (deleteHandler [⟨1, 10, "a", "notes.txt", "/u/10/a", 5, "text/plain", false, none, 0⟩]
      (fun _ => Except.ok "x") (some 10) 1).2 = .ok false ∧
    (deleteHandler [⟨1, 10, "a", "notes.txt", "/u/10/a", 5, "text/plain", false, none, 0⟩]
      (fun _ => Except.error "boom") (some 10) 1).2 = .ok true ∧
    deleteHandler [⟨1, 10, "a", "notes.txt", "/u/10/a", 5, "text/plain", false, none, 0⟩]
      (fun _ => Except.ok "x") (some 11) 1
      = ([⟨1, 10, "a", "notes.txt", "/u/10/a", 5, "text/plain", false, none, 0⟩],
          .notFound) := by
  refine ⟨?_, ?_, ?_⟩
  · exact (C6_delete_scoped
      [⟨1, 10, "a", "notes.txt", "/u/10/a", 5, "text/plain", false, none, 0⟩]
      (fun _ => Except.ok "x") 10 11 1
      ⟨1, 10, "a", "notes.txt", "/u/10/a", 5, "text/plain", false, none, 0⟩
      (by decide) (by decide) rfl rfl).1.2.2
  · exact (C6_delete_scoped
      [⟨1, 10, "a", "notes.txt", "/u/10/a", 5, "text/plain", false, none, 0⟩]
      (fun _ => Except.error "boom") 10 11 1
      ⟨1, 10, "a", "notes.txt", "/u/10/a", 5, "text/plain", false, none, 0⟩
      (by decide) (by decide) rfl rfl).1.2.2
  · exact (C6_delete_scoped
      [⟨1, 10, "a", "notes.txt", "/u/10/a", 5, "text/plain", false, none, 0⟩]
      (fun _ => Except.ok "x") 10 11 1
      ⟨1, 10, "a", "notes.txt", "/u/10/a", 5, "text/plain", false, none, 0⟩
      (by decide) (by decide) rfl rfl).2 (by decide)

/-- C7: sharing an owned file succeeds, answering the fully-qualified
share URL (protocol, host, and the freshly minted token claiming
`{fileId}` with 7-day expiry), and the single update writes the row with
`is_shared = true` and `share_token` set to that token — replacing
whatever token was stored before — while every row of a different id
survives unchanged. -/
theorem C7_share_success (db : DB) (uid fid now : Nat) (protocol host : String)
    (r : FileRow) (hr : r ∈ db) (hid : r.id = fid)
    (huid : r.user_id = uid) :
    ∃ db', shareHandler (.ok db) (some uid) fid now protocol host
        = (.ok db', .ok protocol host (sign (.share fid) JWT_SECRET now (7 * 24 * 60 * 60))) ∧
      (sign (.share fid) JWT_SECRET now (7 * 24 * 60 * 60)).claims = .share fid ∧
      (sign (.share fid) JWT_SECRET now (7 * 24 * 60 * 60)).exp = now + 7 * 24 * 60 * 60 ∧
      { r with is_shared := true,
               share_token := some (sign (.share fid) JWT_SECRET now (7 * 24 * 60 * 60)) } ∈ db' ∧
      (∀ s ∈ db, s.id ≠ fid → s ∈ db') := by
  have hcond : (decide (r.id = fid)
      && decide ((some uid : Option Nat) = some r.user_id)) = true := by
    rw [hid, huid]; simp
  have h1 := shareHandler_fst db (some uid) fid now protocol host
  have h2 := shareHandler_snd db (some uid) fid now protocol host r hr hid (by rw [huid])
  refine ⟨db.map (fun q =>
      if decide (q.id = fid) && decide ((some uid : Option Nat) = some q.user_id) then
        { q with is_shared := true,
                 share_token := some (sign (.share fid) JWT_SECRET now (7 * 24 * 60 * 60)) }
      else q), ?_, rfl, rfl, ?_, ?_⟩
  · have hpair : shareHandler (.ok db) (some uid) fid now protocol host
        = ((shareHandler (.ok db) (some uid) fid now protocol host).1,
           (shareHandler (.ok db) (some uid) fid now protocol host).2) := rfl
    rw [hpair, h1, h2]
  · exact List.mem_map.mpr ⟨r, hr, by rw [if_pos hcond]⟩
  · intro s hs hsid
    refine List.mem_map.mpr ⟨s, hs, ?_⟩
    have hc : (decide (s.id = fid)
        && decide ((some uid : Option Nat) = some s.user_id)) = false := by
      rw [decide_eq_false hsid, Bool.false_and]
    rw [if_neg fun hx => Bool.false_ne_true (hc ▸ hx)]

/-- Witness for C7 on a one-row table that already holds an old token:
the update replaces it. -/
theorem C7_share_success_witness :
    ∃ db', shareHandler
        (.ok [⟨1, 10, "a", "notes.txt", "/u/10/a", 5, "text/plain", true,
          some (sign (.share 1) JWT_SECRET 0 (7 * 24 * 60 * 60)), 0⟩])
        (some 10) 1 99 "https" "example.com"
        = (.ok db', .ok "https" "example.com"
            (sign (.share 1) JWT_SECRET 99 (7 * 24 * 60 * 60))) ∧
      (sign (.share 1) JWT_SECRET 99 (7 * 24 * 60 * 60)).claims = .share 1 ∧
      (sign (.share 1) JWT_SECRET 99 (7 * 24 * 60 * 60)).exp = 99 + 7 * 24 * 60 * 60 ∧
      (⟨1, 10, "a", "notes.txt", "/u/10/a", 5, "text/plain", true,
        some (sign (.share 1) JWT_SECRET 99 (7 * 24 * 60 * 60)), 0⟩ : FileRow) ∈ db' ∧
      (∀ s ∈ ([⟨1, 10, "a", "notes.txt", "/u/10/a", 5, "text/plain", true,
          some (sign (.share 1) JWT_SECRET 0 (7 * 24 * 60 * 60)), 0⟩] : DB),
        s.id ≠ 1 → s ∈ db') :=
  C7_share_success
    [⟨1, 10, "a", "notes.txt", "/u/10/a", 5, "text/plain", true,
      some (sign (.share 1) JWT_SECRET 0 (7 * 24 * 60 * 60)), 0⟩]
    10 1 99 "https" "example.com"
    ⟨1, 10, "a", "notes.txt", "/u/10/a", 5, "text/plain", true,
      some (sign (.share 1) JWT_SECRET 0 (7 * 24 * 60 * 60)), 0⟩
    (by decide) rfl rfl

/-- C8 counterexample: a missing token and a malformed token produce
different client-visible responses — 401 `Token de acceso requerido`
versus 403 `Token inválido` — so Access-Token failures are not the single
uniform error the claim states. -/
theorem C8_counterexample :
    authResponse (authenticateToken none 0) = some (401, "Token de acceso requerido") ∧
    authResponse (authenticateToken (some .malformed) 0) = some (403, "Token inválido") ∧
    authResponse (authenticateToken none 0)
      ≠ authResponse (authenticateToken (some .malformed) 0) := by
  decide

/-- C8 (amended): a missing bearer token fails as 401
`Token de acceso requerido`; every present-but-failing token — malformed,
wrong signature, or expired — fails with the one uniform response 403
`Token inválido`, so within present-token failures the reason is not
distinguishable, but missing-versus-present is. -/
theorem C8_auth_failure_split (p : Presented) (t : Token) (now : Nat) :
    (verify p JWT_SECRET now = none →
      authenticateToken (some p) now = .invalid ∧
      authResponse (authenticateToken (some p) now) = some (403, "Token inválido")) ∧
    (t.secret ≠ JWT_SECRET ∨ t.exp ≤ now →
      authenticateToken (some (.tok t)) now = .invalid) ∧
    authenticateToken (some .malformed) now = .invalid ∧
    authenticateToken none now = .missing ∧
    authResponse (authenticateToken none now)
      = some (401, "Token de acceso requerido") := by
  refine ⟨?_, ?_, rfl, rfl, rfl⟩
  · intro h
    constructor
    · simp only [authenticateToken, h]
    · simp only [authenticateToken, h]
      rfl
  · intro h
    have hv : verify (.tok t) JWT_SECRET now = none := by
      simp only [verify]
      rw [if_neg]
      rintro ⟨hs, hl⟩
      rcases h with h | h
      · exact h hs
      · exact absurd hl (not_lt.mpr h)
    simp only [authenticateToken, hv]

/-- Witness for C8's amended statement: malformed, badly signed and
missing tokens at a concrete time. -/
theorem C8_auth_failure_split_witness :
    authenticateToken (some .malformed) 5 = .invalid ∧
    authenticateToken (some (.tok ⟨.access 1 "a", 0, 100, "xsecret"⟩)) 5 = .invalid ∧
    authenticateToken none 5 = .missing := by
  obtain ⟨h1, h2, h3, h4, h5⟩ :=
    C8_auth_failure_split .malformed ⟨.access 1 "a", 0, 100, "xsecret"⟩ 5
  exact ⟨(h1 rfl).1, h2 (Or.inl (by decide)), h4⟩

/-- C9 counterexample: a backing-store failure during Download reaches
the client as a 500 whose `details` field is the raw backing-store error
message, verbatim. -/
theorem C9_counterexample :
    dlResponse (download (.error "duplicate key value violates unique constraint")
        (fun _ => true) (some 1) 1)
      = (500, "Error al buscar archivo",
          some "duplicate key value violates unique constraint") := by
  rfl

/-- C9 (amended): every backing-store failure is caught and mapped to a
taxonomy outcome with a generic message (here the 500
`Error al buscar archivo` / `Error al compartir archivo` style), but the
raw backing-store message is additionally carried verbatim into the
client-visible `details` field. -/
theorem C9_store_error_details (msg : String) (disk : String → Bool)
    (userId : Option Nat) (fid now : Nat) (protocol host : String) :
    listFiles (.error msg) userId = .storeError msg ∧
    download (.error msg) disk userId fid = .storeError msg ∧
    dlResponse (download (.error msg) disk userId fid)
      = (500, "Error al buscar archivo", some msg) ∧
    shareHandler (.error msg) userId fid now protocol host
      = (.error msg, .storeError msg) :=
  ⟨rfl, rfl, rfl, rfl⟩

/-- C10 (code bug): the allow-list regex is matched against the declared
mime type as well, and `"text/plain"` — the standard mime type of a
`.txt` upload — contains no allow-list word, so the filter rejects
`notes.txt` even though its extension check passes; `.exe` is rejected as
the claim states, and a file like `photo.jpg` (mime `image/jpeg`, which
does contain an allow-list word) is accepted. -/
theorem C10_txt_rejected :
    fileFilter "notes.txt" "text/plain" = false ∧
    regexTest (toLowerStr (extname "notes.txt")) = true ∧
    regexTest "text/plain" = false ∧
    fileFilter "malware.exe" "application/x-msdownload" = false ∧
    fileFilter "photo.jpg" "image/jpeg" = true := by
  decide

end FileShare
